import Mathlib

/-!
Verification development for the ReFind retrieval-augmented query pipeline.

The repository ships the frontend (TypeScript, under `src/frontend` and the
unnamed parts) and only declarations/callers of the backend core; the backend
Python modules (chunker, vector store, reference queue, query engine) are not
part of the source tree.  Where a definition embeds such a missing component,
its doc comment starts with `Modelled from the spec:` and follows the
specification text (spec.md) faithfully.  Definitions taken from files that
are present (the frontend TypeScript) say so in their doc comments.
-/

namespace ReFind

/-- Modelled from the spec (§3, `ReferenceStatus`, backend enum missing from
the tree): the five-value processing status of a bibliographic reference. -/
inductive ReferenceStatus
  | not_started
  | pending
  | processing
  | processed
  | failed
deriving DecidableEq, Fintype

/-- Embedded from `src/unnamed/part_009` lines 65–67 (`ReferenceStatus`
interface of the frontend API layer): the union type of status strings the
HTTP interface exposes, `'processed' | 'pending' | 'failed' | 'not_started'`. -/
inductive TSReferenceStatus
  | processed
  | pending
  | failed
  | not_started
deriving DecidableEq, Fintype

/-- Interpretation of an interface status string as a backend status value. -/
def TSReferenceStatus.toEnum : TSReferenceStatus → ReferenceStatus
  | .processed => .processed
  | .pending => .pending
  | .failed => .failed
  | .not_started => .not_started

/-- Modelled from the spec (§4.4, backend queue worker missing from the tree):
the events that drive a reference's status. `enqueue` covers both the initial
enqueue of a `not_started` reference and the explicit re-enqueue (retry) of a
`failed` one. -/
inductive QueueEvent
  | enqueue
  | workerPickup
  | succeed
  | fail
deriving DecidableEq, Fintype

/-- Modelled from the spec (§4.4 state machine, backend missing from the
tree): the status transition function of the Reference Queue.  `none` means
the event is not applicable in the given status. -/
def stepStatus : QueueEvent → ReferenceStatus → Option ReferenceStatus
  | .enqueue, .not_started => some .pending
  | .enqueue, .failed => some .pending
  | .workerPickup, .pending => some .processing
  | .succeed, .processing => some .processed
  | .fail, .processing => some .failed
  | _, _ => none

/-- Modelled from the spec (§3, `Chunk`, backend chunker missing from the
tree): a line-addressed excerpt of document text. -/
structure Chunk where
  text : String
  chunk_index : ℕ
  start_line : ℕ
  end_line : ℕ
  owner_ref_id : Option String
deriving DecidableEq

/-- Modelled from the spec (§4.1, backend chunker missing from the tree):
the recursive splitting loop.  It consumes the line list, emitting a chunk of
at most `target` lines and stepping forward by `target - overlap` lines (at
least one) so consecutive chunks share `overlap` lines.  The `fuel` argument
makes the recursion structural; it starts at the number of lines, which an
invariant (each step drops at least one line) keeps sufficient. -/
def chunkGo (target ov : ℕ) : ℕ → List String → ℕ → ℕ → List Chunk
  | 0, _, _, _ => []
  | _, [], _, _ => []
  | fuel + 1, x :: xs, start, ci =>
      { text := String.intercalate "\n" ((x :: xs).take target),
        chunk_index := ci,
        start_line := start,
        end_line := start + min target (x :: xs).length - 1,
        owner_ref_id := none } ::
        chunkGo target ov fuel ((x :: xs).drop (max 1 (target - ov)))
          (start + max 1 (target - ov)) (ci + 1)

/-- Splitting accumulator loop for `splitLines`, structural on the character
list. -/
def splitLinesAux : List Char → List Char → List String
  | [], acc => [String.mk acc.reverse]
  | c :: cs, acc =>
      if c = Char.ofNat 10 then String.mk acc.reverse :: splitLinesAux cs []
      else splitLinesAux cs (c :: acc)

/-- Modelled from the spec (§4.1, backend chunker missing from the tree):
split a text into its lines at newline characters. -/
def splitLines (s : String) : List String :=
  splitLinesAux s.data []

/-- Modelled from the spec (§4.1, backend chunker missing from the tree):
`chunk(text, target_size, overlap)` splits `text` into overlapping
line-numbered passages; the empty input produces the empty sequence. -/
def chunk (text : String) (target ov : ℕ) : List Chunk :=
  if text = "" then []
  else chunkGo target ov (splitLines text).length (splitLines text) 0 0

/-- Modelled from the spec (§3, `IndexedVector`, backend vector store missing
from the tree): an embedding vector, rationals standing in for floats. -/
abbrev Vec := List ℚ

/-- Modelled from the spec (§2/§4.2, backend vector store missing from the
tree): the inner-product similarity metric used uniformly by an index. -/
def dot (v w : Vec) : ℚ := (List.zipWith (· * ·) v w).sum

/-- Modelled from the spec (§4.2, backend vector store missing from the
tree): an Embedding Index stores (chunk, vector) pairs in insertion order. -/
abbrev EmbeddingIndex := List (Chunk × Vec)

/-- A search candidate: the insertion position of the entry in the index, its
chunk, and its similarity to the query vector. -/
structure ScoredEntry where
  pos : ℕ
  chunk : Chunk
  sim : ℚ
deriving DecidableEq

/-- Ranking order on candidates: higher similarity first, ties broken by
earlier insertion position (the stable tie-break of §4.2). -/
def entryLE (a b : ScoredEntry) : Prop :=
  b.sim < a.sim ∨ (a.sim = b.sim ∧ a.pos ≤ b.pos)

instance : DecidableRel entryLE := fun a b => by
  unfold entryLE; infer_instance

instance : IsTotal ScoredEntry entryLE := by
  constructor
  intro a b
  rcases lt_trichotomy a.sim b.sim with h | h | h
  · exact Or.inr (Or.inl h)
  · rcases Nat.le_total a.pos b.pos with hp | hp
    · exact Or.inl (Or.inr ⟨h, hp⟩)
    · exact Or.inr (Or.inr ⟨h.symm, hp⟩)
  · exact Or.inl (Or.inl h)

instance : IsTrans ScoredEntry entryLE := by
  constructor
  intro a b c hab hbc
  rcases hab with h1 | ⟨h1, p1⟩
  · rcases hbc with h2 | ⟨h2, _⟩
    · exact Or.inl (h2.trans h1)
    · exact Or.inl (h2 ▸ h1)
  · rcases hbc with h2 | ⟨h2, p2⟩
    · exact Or.inl (h1 ▸ h2)
    · exact Or.inr ⟨h1.trans h2, p1.trans p2⟩

/-- Modelled from the spec (§4.2, backend vector store missing from the
tree): score every stored vector against the query, remembering insertion
positions. -/
def scoreEntries (idx : EmbeddingIndex) (q : Vec) : List ScoredEntry :=
  idx.enum.map fun p => ⟨p.1, p.2.1, dot p.2.2 q⟩

/-- Modelled from the spec (§4.2, backend vector store missing from the
tree): the ranked candidate list — stably sorted by descending similarity,
truncated to `k`. -/
def searchRanked (idx : EmbeddingIndex) (q : Vec) (k : ℕ) : List ScoredEntry :=
  (List.insertionSort entryLE (scoreEntries idx q)).take k

/-- Modelled from the spec (§4.2, backend vector store missing from the
tree): `search(query_vector, k)` returns the top-`k` (chunk, similarity)
pairs. -/
def search (idx : EmbeddingIndex) (q : Vec) (k : ℕ) : List (Chunk × ℚ) :=
  (searchRanked idx q k).map fun e => (e.chunk, e.sim)

/-- Modelled from the spec (§4.2 `add`, backend vector store missing from the
tree): build an index by embedding each chunk with the collaborator. -/
def buildIndex (embed : String → Vec) (cs : List Chunk) : EmbeddingIndex :=
  cs.map fun c => (c, embed c.text)

/-- Modelled from the spec (§3, `ReferenceRecord`, backend store missing from
the tree): reference identifiers, abstracted to naturals. -/
abbrev RefId := ℕ

/-- Modelled from the spec (§3, backend store missing from the tree): the
per-reference record slice the queue reads and writes — its join key and its
status. -/
structure RefEntry where
  rid : RefId
  status : ReferenceStatus
deriving DecidableEq

/-- Embedded from `src/frontend/src/components/Modal.tsx` lines 84–88
(`QueueStatus` interface) and spec §3 `QueueState`: the queue bookkeeping
exposed at `/references/queue/status`.  `queue` is the ordered work list; its
length is the interface's `queue_size`. -/
structure QueueState where
  queue : List RefId
  processed_count : ℕ
  is_processing : Bool
deriving DecidableEq

/-- Modelled from the spec (§3 `PaperMetadata`, trimmed to the parts the
claims mention; backend store missing from the tree). -/
structure PaperMetadata where
  title : String
  source_text : String
  references : List RefId
deriving DecidableEq

/-- Modelled from the spec (§3/§4.3, backend store missing from the tree):
the process-wide state — active paper, its reference records, the primary
document's Embedding Index and the queue bookkeeping. -/
structure SysState where
  paper : Option PaperMetadata
  refs : List RefEntry
  primaryIndex : EmbeddingIndex
  qs : QueueState

/-- Update the status of the reference record with the given id. -/
def setStatus (rs : List RefEntry) (r : RefId) (st : ReferenceStatus) :
    List RefEntry :=
  rs.map fun e => if e.rid = r then { e with status := st } else e

/-- Modelled from the spec (§4.4 worker body, backend missing from the
tree): process one dequeued reference.  The fetch/parse/embed pipeline is the
`fetch` collaborator; an `Except.error` from it becomes a `failed` status —
it is converted, never rethrown past the worker boundary. -/
def runRef (fetch : RefId → Except String Unit) (r : RefId) : ReferenceStatus :=
  match fetch r with
  | .ok _ => .processed
  | .error _ => .failed

/-- Modelled from the spec (§4.4 worker loop, backend missing from the
tree): drain the queue in FIFO order, recording the terminal status of each
dequeued reference in order. -/
def drainTrace (fetch : RefId → Except String Unit) :
    List RefId → List (RefId × ReferenceStatus)
  | [] => []
  | r :: q => (r, runRef fetch r) :: drainTrace fetch q

/-- Modelled from the spec (§4.4 worker loop, backend missing from the
tree): drain the queue against the reference records, writing each dequeued
reference's terminal status and incrementing `processed_count` once per
dequeued item (successes and failures alike). -/
def drainList (fetch : RefId → Except String Unit) (rs : List RefEntry)
    (count : ℕ) : List RefId → List RefEntry × ℕ
  | [] => (rs, count)
  | r :: q => drainList fetch (setStatus rs r (runRef fetch r)) (count + 1) q

/-- Does a status count as terminally handled by the worker? -/
def isDone (st : ReferenceStatus) : Bool :=
  match st with
  | .processed => true
  | .failed => true
  | _ => false

/-- Modelled from the spec (§4.3 `load`, backend store missing from the
tree): replace the active paper, re-chunk and re-index the primary document
synchronously, install the new references with status `not_started`, and
reset the queue (prior reference work is abandoned). -/
def load (_s : SysState) (m : PaperMetadata) (embed : String → Vec)
    (target ov : ℕ) : SysState :=
  { paper := some m,
    refs := m.references.map fun r => ⟨r, .not_started⟩,
    primaryIndex := buildIndex embed (chunk m.source_text target ov),
    qs := { queue := [], processed_count := 0, is_processing := false } }

/-- Modelled from the spec (§4.4 `enqueue_all`, backend missing from the
tree): enqueue every reference currently `not_started`, marking each
`pending`. -/
def enqueueAll (s : SysState) : SysState :=
  { s with
    refs := s.refs.map fun e =>
      if e.status = .not_started then { e with status := .pending } else e,
    qs := { s.qs with
      queue := s.qs.queue ++
        (s.refs.filter fun e => e.status = .not_started).map RefEntry.rid } }

/-- Modelled from the spec (§6 upload path): `POST /upload` triggers `load`
followed by `enqueue_all`. -/
def uploadPaper (s : SysState) (m : PaperMetadata) (embed : String → Vec)
    (target ov : ℕ) : SysState :=
  enqueueAll (load s m embed target ov)

/-- Modelled from the spec (§4.5 contract, backend engine missing from the
tree): token accounting as reported by the generation collaborator. -/
structure TokenUsage where
  prompt : ℕ
  completion : ℕ
  total : ℕ
deriving DecidableEq

/-- Modelled from the spec (§4.5 contract, backend engine missing from the
tree): one source attribution. The spec calls the second field `section`,
which is a Lean keyword, so it is named `sectionName` here. -/
structure SourceInfo where
  text : String
  sectionName : String
  start_line : ℕ
  end_line : ℕ
  similarity : ℚ
deriving DecidableEq

/-- Modelled from the spec (§4.5, backend engine missing from the tree): the
generation collaborator's reply — answer text plus token usage. -/
structure GenResult where
  text : String
  usage : TokenUsage
deriving DecidableEq

/-- Modelled from the spec (§4.5 contract, backend engine missing from the
tree): the record `answer` returns on success. -/
structure QueryResult where
  answer : String
  chunks_used : ℕ
  token_usage : TokenUsage
  sources : List SourceInfo
deriving DecidableEq

/-- Modelled from the spec (§7 error taxonomy, backend missing from the
tree): the failures `answer` can surface, `NoActiveDocumentError` distinct
from `UpstreamServiceError`. -/
inductive QueryError
  | noActiveDocument
  | upstreamService
deriving DecidableEq

/-- Instrumentation: how many times `answer` invoked each collaborator. -/
structure CallCounts where
  embedCalls : ℕ
  genCalls : ℕ
deriving DecidableEq

/-- Modelled from the spec (§4.5 step 3): a retrieved chunk rendered as a
source attribution; `sectOf` maps a chunk to its section title. -/
def toSource (sectOf : Chunk → String) (c : Chunk) (sim : ℚ) : SourceInfo :=
  { text := c.text,
    sectionName := sectOf c,
    start_line := c.start_line,
    end_line := c.end_line,
    similarity := sim }

/-- Modelled from the spec (§4.5 step 3): the grounding prompt — retrieved
chunks in descending-similarity order, each tagged with its section and line
range, followed by the question. -/
def assemblePrompt (sectOf : Chunk → String) (retrieved : List (Chunk × ℚ))
    (question : String) : String :=
  String.intercalate "\n"
    (retrieved.map fun p =>
      sectOf p.1 ++ ":" ++ toString p.1.start_line ++ "-" ++
        toString p.1.end_line ++ "\n" ++ p.1.text) ++ "\n" ++ question

/-- Modelled from the spec (§4.5, backend engine missing from the tree):
`answer(question)`.  Returns the outcome, the collaborator call counts, and
the (unchanged) active document, making "no partial answer, state unchanged
on error, no internal retries" visible in the result. -/
def answerQ (doc : Option EmbeddingIndex) (embed : String → Except String Vec)
    (gen : String → Except String GenResult) (sectOf : Chunk → String)
    (k : ℕ) (question : String) :
    Except QueryError QueryResult × CallCounts × Option EmbeddingIndex :=
  match doc with
  | none => (.error .noActiveDocument, ⟨0, 0⟩, none)
  | some idx =>
    match embed question with
    | .error _ => (.error .upstreamService, ⟨1, 0⟩, some idx)
    | .ok qv =>
      match gen (assemblePrompt sectOf (search idx qv k) question) with
      | .error _ => (.error .upstreamService, ⟨1, 1⟩, some idx)
      | .ok g =>
        (.ok { answer := g.text,
               chunks_used := (search idx qv k).length,
               token_usage := g.usage,
               sources := (search idx qv k).map fun p => toSource sectOf p.1 p.2 },
         ⟨1, 1⟩, some idx)

/-- Strip leading and trailing whitespace from a character list. -/
def trimChars (cs : List Char) : List Char :=
  (((cs.dropWhile Char.isWhitespace).reverse.dropWhile
    Char.isWhitespace).reverse)

/-- The JavaScript `String.prototype.trim` used by the frontend: strips
whitespace from both ends of the string. -/
def jsTrim (s : String) : String :=
  String.mk (trimChars s.data)

/-- Embedded from `src/frontend/src/components/QueryBox.tsx` lines 12–18
(`handleSubmit`): on submit the component calls `onSubmit(query.trim())`
exactly when `query.trim()` is truthy (non-empty) and `isLoading` is false;
`some s` means `onSubmit` was invoked with `s`. -/
def handleSubmit (query : String) (isLoading : Bool) : Option String :=
  if jsTrim query ≠ "" ∧ isLoading = false then some (jsTrim query) else none

/-- Concrete inputs used by witness instantiations. -/
def sampleChunk : Chunk :=
  { text := "hello", chunk_index := 0, start_line := 0, end_line := 0,
    owner_ref_id := none }

/-- A second concrete chunk for witness instantiations. -/
def sampleChunk2 : Chunk :=
  { text := "world", chunk_index := 1, start_line := 1, end_line := 1,
    owner_ref_id := none }

/-- A concrete embedding collaborator that always succeeds. -/
def embedOk : String → Except String Vec := fun _ => .ok [1]

/-- A concrete generation collaborator that always succeeds. -/
def genOk : String → Except String GenResult :=
  fun _ => .ok { text := "fine", usage := ⟨1, 2, 3⟩ }

/-- A concrete section-title map. -/
def sectNone : Chunk → String := fun _ => "Introduction"

/-- A concrete fetch collaborator failing exactly on reference 1. -/
def fetchButOne : RefId → Except String Unit :=
  fun r => if r = 1 then .error "resolution miss" else .ok ()

/-- A concrete paper with a single reference, id 7. -/
def samplePaper : PaperMetadata :=
  { title := "t", source_text := "body", references := [7] }

/-- A concrete empty system state. -/
def sampleState : SysState :=
  { paper := none, refs := [], primaryIndex := [],
    qs := { queue := [], processed_count := 0, is_processing := false } }

/-- A concrete embedding function returning the empty vector. -/
def embedVecNil : String → Vec := fun _ => []

/-! Helper lemmas. -/

theorem chunkGo_nil (target ov fuel start ci : ℕ) :
    chunkGo target ov fuel [] start ci = [] := by
  cases fuel <;> rfl

theorem chunkGo_end_lt (target ov : ℕ) :
    ∀ fuel ls start ci, ∀ c ∈ chunkGo target ov fuel ls start ci,
      c.end_line < start + ls.length := by
  intro fuel
  induction fuel with
  | zero => intro ls start ci c hc; simp [chunkGo] at hc
  | succ n ih =>
      intro ls start ci c hc
      cases ls with
      | nil => simp [chunkGo] at hc
      | cons x xs =>
          simp only [chunkGo, List.mem_cons] at hc
          rcases hc with rfl | hc
          · simp only [List.length_cons]
            omega
          · by_cases hst : (x :: xs).length ≤ max 1 (target - ov)
            · rw [List.drop_eq_nil_of_le hst, chunkGo_nil] at hc
              simp at hc
            · have h := ih _ _ _ _ hc
              simp only [List.length_drop, List.length_cons] at h ⊢
              simp only [List.length_cons] at hst
              omega

theorem sorted_searchRanked (idx : EmbeddingIndex) (q : Vec) (k : ℕ) :
    (searchRanked idx q k).Pairwise entryLE :=
  (List.sorted_insertionSort entryLE (scoreEntries idx q)).sublist
    (List.take_sublist ..)

theorem mem_searchRanked {idx : EmbeddingIndex} {q : Vec} {k : ℕ}
    {e : ScoredEntry} (h : e ∈ searchRanked idx q k) : e ∈ scoreEntries idx q := by
  have h1 := List.mem_of_mem_take h
  rwa [List.mem_insertionSort] at h1

theorem drainList_snd (fetch : RefId → Except String Unit) :
    ∀ (q : List RefId) (rs : List RefEntry) (count : ℕ),
      (drainList fetch rs count q).2 = count + q.length := by
  intro q
  induction q with
  | nil => intro rs count; simp [drainList]
  | cons r q ih =>
      intro rs count
      simp only [drainList, ih, List.length_cons]
      omega

theorem drainList_fst (fetch : RefId → Except String Unit) :
    ∀ (q : List RefId) (rs : List RefEntry) (count : ℕ),
      (drainList fetch rs count q).1 =
        rs.map fun e =>
          if e.rid ∈ q then { e with status := runRef fetch e.rid } else e := by
  intro q
  induction q with
  | nil =>
      intro rs count
      simp [drainList]
  | cons r q ih =>
      intro rs count
      rw [drainList, ih, setStatus, List.map_map]
      refine List.map_congr_left fun e _ => ?_
      by_cases h1 : e.rid = r <;> by_cases h2 : e.rid ∈ q <;>
        simp [Function.comp, h1, h2, List.mem_cons]

theorem dot_eq_sum : ∀ (n : ℕ) (v w : Vec), v.length = n → w.length = n →
    dot v w = ∑ i ∈ Finset.range n, v.getD i 0 * w.getD i 0 := by
  intro n
  induction n with
  | zero =>
      intro v w hv hw
      rw [List.length_eq_zero] at hv hw
      subst hv; subst hw
      simp [dot]
  | succ n ih =>
      intro v w hv hw
      cases v with
      | nil => simp at hv
      | cons a v =>
          cases w with
          | nil => simp at hw
          | cons b w =>
              simp only [List.length_cons, Nat.succ.injEq] at hv hw
              rw [Finset.sum_range_succ']
              simp only [List.getD_cons_succ, List.getD_cons_zero]
              rw [← ih v w hv hw]
              simp [dot]
              ring

theorem dot_le_one (v w : Vec) (h : w.length = v.length)
    (hv : dot v v = 1) (hw : dot w w = 1) : dot w v ≤ 1 := by
  have hs := Finset.sum_mul_sq_le_sq_mul_sq (Finset.range v.length)
    (fun i => w.getD i 0) (fun i => v.getD i 0)
  simp only [pow_two] at hs
  rw [← dot_eq_sum v.length w v h rfl, ← dot_eq_sum v.length w w h h,
    ← dot_eq_sum v.length v v rfl rfl, hv, hw, mul_one] at hs
  nlinarith [hs]

/-! Claim theorems. -/

/-- C1: a reference status only moves forward along
`not_started → pending → processing → {processed|failed}`, never skipping
`pending` or `processing`; `processed` is terminal; from `failed` the only
transition is back to `pending` and only via the explicit re-enqueue event;
and every status value the frontend interface type exposes is one of the
five enum values. -/
theorem c1_status_lifecycle :
    (∀ e s t, stepStatus e s = some t →
      ((s = .not_started ∧ t = .pending) ∨
       (s = .pending ∧ t = .processing) ∨
       (s = .processing ∧ (t = .processed ∨ t = .failed)) ∨
       (s = .failed ∧ t = .pending ∧ e = .enqueue))) ∧
    (∀ e, stepStatus e .processed = none) ∧
    (∀ e, e ≠ .enqueue → stepStatus e .failed = none) ∧
    (∀ t : TSReferenceStatus,
      t.toEnum = .not_started ∨ t.toEnum = .pending ∨
      t.toEnum = .processing ∨ t.toEnum = .processed ∨ t.toEnum = .failed) := by
  refine ⟨?_, ?_, ?_, ?_⟩ <;> decide

/-- Witness for C1: the worker's `fail` event does not move a `failed`
reference (only an explicit re-enqueue does). -/
theorem c1_status_lifecycle_witness :
    stepStatus QueueEvent.fail ReferenceStatus.failed = none :=
  c1_status_lifecycle.2.2.1 QueueEvent.fail (by decide)

/-- C2: `search(query_vector, k)` returns at most `k` (chunk, similarity)
pairs, sorted by descending similarity with ties broken by original
insertion position (stable); every ranked entry comes from scoring the
index; and the empty index yields the empty sequence. -/
theorem c2_search_contract (idx : EmbeddingIndex) (q : Vec) (k : ℕ) :
    (search idx q k).length ≤ k ∧
    (search idx q k).Pairwise (fun a b => b.2 ≤ a.2) ∧
    (searchRanked idx q k).Pairwise
      (fun a b => a.sim = b.sim → a.pos ≤ b.pos) ∧
    (∀ e ∈ searchRanked idx q k, e ∈ scoreEntries idx q) ∧
    search [] q k = [] := by
  refine ⟨?_, ?_, ?_, fun e he => mem_searchRanked he,
    by simp [search, searchRanked, scoreEntries]⟩
  · simp only [search, searchRanked, List.length_map]
    exact List.length_take_le ..
  · have hs := sorted_searchRanked idx q k
    rw [search, List.pairwise_map]
    refine hs.imp fun {a b} h => ?_
    rcases h with h | ⟨h, _⟩
    · exact le_of_lt h
    · exact le_of_eq h.symm
  · refine (sorted_searchRanked idx q k).imp fun {a b} h heq => ?_
    rcases h with h | ⟨_, hp⟩
    · exact absurd (heq ▸ h) (lt_irrefl _)
    · exact hp

/-- Witness for C2: the single scored entry of a one-vector index is indeed
drawn from scoring that index. -/
theorem c2_search_contract_witness :
    (⟨0, sampleChunk, 2⟩ : ScoredEntry) ∈ scoreEntries [(sampleChunk, [2])] [1] :=
  (c2_search_contract [(sampleChunk, [2])] [1] 3).2.2.2.1
    ⟨0, sampleChunk, 2⟩ (by
      have h : searchRanked [(sampleChunk, [2])] [1] 3 = [⟨0, sampleChunk, 2⟩] := by
        simp [searchRanked, scoreEntries, List.insertionSort, dot]
      rw [h]
      simp)

/-- C3: chunking is deterministic (equal input and parameters give an equal
chunk sequence), the empty input yields the empty sequence rather than an
error, and no chunk's line range crosses the end of the input (every
`end_line` stays below the input's line count; the final chunk may simply be
shorter). -/
theorem c3_chunker (t : String) (target ov : ℕ) :
    (∀ s, s = t → chunk s target ov = chunk t target ov) ∧
    chunk "" target ov = [] ∧
    (∀ c ∈ chunk t target ov, c.end_line < (splitLines t).length) := by
  refine ⟨fun s hs => by rw [hs], by simp [chunk], ?_⟩
  intro c hc
  unfold chunk at hc
  split at hc
  · simp at hc
  · have h := chunkGo_end_lt target ov _ _ _ _ c hc
    simpa using h

/-- Witness for C3: the single chunk of the one-line input "a" ends before
line count 1. -/
theorem c3_chunker_witness :
    Chunk.end_line
      { text := "a", chunk_index := 0, start_line := 0, end_line := 0,
        owner_ref_id := none } < (splitLines "a").length :=
  (c3_chunker "a" 1 0).2.2 _ (by decide)

/-- C4: after the queue drains, `processed_count` equals the number of
references whose status is `processed` or `failed`; each dequeued reference
(successful or failed alike) incremented it exactly once, so starting from
zero it ends at the queue length. -/
theorem c4_processed_count (fetch : RefId → Except String Unit)
    (refs : List RefEntry) :
    (drainList fetch refs 0 (refs.map RefEntry.rid)).2 = refs.length ∧
    (drainList fetch refs 0 (refs.map RefEntry.rid)).2 =
      ((drainList fetch refs 0 (refs.map RefEntry.rid)).1.filter
        fun e => isDone e.status).length := by
  have hsnd := drainList_snd fetch (refs.map RefEntry.rid) refs 0
  have hlen : (refs.map RefEntry.rid).length = refs.length := List.length_map ..
  refine ⟨by rw [hsnd, hlen, Nat.zero_add], ?_⟩
  rw [drainList_fst]
  have hall : ∀ e ∈ refs.map fun e =>
      if e.rid ∈ refs.map RefEntry.rid
      then { e with status := runRef fetch e.rid } else e,
      isDone e.status = true := by
    intro e he
    obtain ⟨a, ha, rfl⟩ := List.mem_map.1 he
    rw [if_pos (List.mem_map_of_mem RefEntry.rid ha)]
    unfold runRef
    cases fetch a.rid <;> simp [isDone]
  rw [List.filter_eq_self.mpr hall, List.length_map, hsnd, hlen, Nat.zero_add]

/-- C7: after `load` the primary Embedding Index is the one built
synchronously from the new paper's chunks (ready for `search`), every
reference of the new paper is present with status `not_started`, and the
queue is reset — after the upload path (`load` + `enqueue_all`) the queue
holds exactly the new paper's references, whatever pending items the
previous paper's queue still had. -/
theorem c7_load_contract (s : SysState) (m : PaperMetadata)
    (embed : String → Vec) (target ov : ℕ) :
    (load s m embed target ov).primaryIndex =
      buildIndex embed (chunk m.source_text target ov) ∧
    (∀ e ∈ (load s m embed target ov).refs, e.status = .not_started) ∧
    (load s m embed target ov).refs.map RefEntry.rid = m.references ∧
    (load s m embed target ov).qs.queue = [] ∧
    (load s m embed target ov).qs.processed_count = 0 ∧
    (uploadPaper s m embed target ov).qs.queue = m.references := by
  refine ⟨rfl, ?_, ?_, rfl, rfl, ?_⟩
  · intro e he
    obtain ⟨r, _, rfl⟩ := List.mem_map.1 he
    rfl
  · simp only [load, List.map_map]
    have hid : ∀ r ∈ m.references,
        (RefEntry.rid ∘ fun r =>
          ({ rid := r, status := ReferenceStatus.not_started } : RefEntry)) r =
        id r := fun r _ => rfl
    rw [List.map_congr_left hid, List.map_id]
  · have hfm : ∀ l : List RefId,
        List.map RefEntry.rid
          (List.filter (fun e => decide (e.status = ReferenceStatus.not_started))
            (List.map
              (fun r =>
                ({ rid := r, status := ReferenceStatus.not_started } : RefEntry))
              l)) = l := by
      intro l
      induction l with
      | nil => rfl
      | cons a l ih => simpa using ih
    simpa [uploadPaper, enqueueAll, load] using hfm m.references

/-- Witness for C7: loading the sample paper over the empty state yields its
single reference with status `not_started`. -/
theorem c7_load_contract_witness :
    RefEntry.status ⟨7, ReferenceStatus.not_started⟩ =
      ReferenceStatus.not_started :=
  (c7_load_contract sampleState samplePaper embedVecNil 1 0).2.1
    ⟨7, ReferenceStatus.not_started⟩ (by decide)

/-- C8: the single worker processes references strictly in FIFO enqueue
order (the trace of dequeued ids is exactly the queue), every dequeued
reference reaches a terminal status, and a collaborator failure is converted
into status `failed` — it never escapes the worker and never prevents the
remaining items from being processed. -/
theorem c8_fifo_failure_isolation (fetch : RefId → Except String Unit)
    (q : List RefId) :
    (drainTrace fetch q).map Prod.fst = q ∧
    (∀ p ∈ drainTrace fetch q,
      (p.2 = ReferenceStatus.processed ∨ p.2 = ReferenceStatus.failed) ∧
      (p.2 = ReferenceStatus.failed ↔ ∃ msg, fetch p.1 = .error msg)) := by
  constructor
  · induction q with
    | nil => rfl
    | cons r q ih => simp [drainTrace, ih]
  · intro p hp
    induction q with
    | nil => simp [drainTrace] at hp
    | cons r q ih =>
        rw [drainTrace, List.mem_cons] at hp
        rcases hp with rfl | hmem
        · constructor
          · unfold runRef
            cases fetch r <;> simp
          · unfold runRef
            cases hf : fetch r <;> simp [hf]
        · exact ih hmem

/-- Witness for C8: in a three-item queue whose middle reference fails, the
middle trace entry's `failed` status certifies a collaborator error. -/
theorem c8_fifo_failure_isolation_witness :
    ∃ msg, fetchButOne 1 = Except.error msg :=
  ((c8_fifo_failure_isolation fetchButOne [0, 1, 2]).2
    (1, ReferenceStatus.failed) (by decide)).2.mp rfl

/-- C5: `answer` fails with `NoActiveDocumentError` exactly when no document
is loaded; a failing embedding or generation collaborator call makes it fail
with `UpstreamServiceError`; each collaborator is invoked at most once (no
internal retry); and the engine state (the active document) is unchanged, so
an error leaves no partial answer behind. -/
theorem c5_answer_failures (doc : Option EmbeddingIndex)
    (embed : String → Except String Vec)
    (gen : String → Except String GenResult) (sectOf : Chunk → String)
    (k : ℕ) (question : String) :
    ((answerQ doc embed gen sectOf k question).1 =
        Except.error QueryError.noActiveDocument ↔ doc = none) ∧
    (∀ idx msg, doc = some idx → embed question = .error msg →
      (answerQ doc embed gen sectOf k question).1 =
        Except.error QueryError.upstreamService) ∧
    (∀ idx qv msg, doc = some idx → embed question = .ok qv →
      gen (assemblePrompt sectOf (search idx qv k) question) = .error msg →
      (answerQ doc embed gen sectOf k question).1 =
        Except.error QueryError.upstreamService) ∧
    (answerQ doc embed gen sectOf k question).2.1.embedCalls ≤ 1 ∧
    (answerQ doc embed gen sectOf k question).2.1.genCalls ≤ 1 ∧
    (answerQ doc embed gen sectOf k question).2.2 = doc := by
  cases doc with
  | none => simp [answerQ]
  | some idx =>
      cases he : embed question with
      | error m => simp [answerQ, he]
      | ok qv =>
          cases hg : gen (assemblePrompt sectOf (search idx qv k) question) with
          | error m => simp [answerQ, he, hg]
          | ok g =>
              simp [answerQ, he, hg]
              intro idx2 qv2 msg h1 h2
              subst h1
              subst h2
              simp [hg]

/-- Witness for C5: with no document loaded, `answer` fails with
`NoActiveDocumentError`. -/
theorem c5_answer_failures_witness :
    (answerQ none embedOk genOk sectNone 5 "q").1 =
      Except.error QueryError.noActiveDocument :=
  (c5_answer_failures none embedOk genOk sectNone 5 "q").1.mpr rfl

/-- C6: on success `answer` returns the generated text, `chunks_used` equal
to the number of chunks actually included — `min k` (index size), hence at
most `k` and fewer when the index holds fewer than `k` vectors — the token
usage reported by the generation collaborator, and one source record per
included chunk, each carrying text, section, line range and similarity (by
construction of `toSource`). -/
theorem c6_answer_shape (idx : EmbeddingIndex)
    (embed : String → Except String Vec)
    (gen : String → Except String GenResult) (sectOf : Chunk → String)
    (k : ℕ) (question : String) (qv : Vec) (g : GenResult)
    (he : embed question = .ok qv)
    (hg : gen (assemblePrompt sectOf (search idx qv k) question) = .ok g) :
    (answerQ (some idx) embed gen sectOf k question).1 =
      Except.ok
        { answer := g.text,
          chunks_used := (search idx qv k).length,
          token_usage := g.usage,
          sources := (search idx qv k).map fun p => toSource sectOf p.1 p.2 } ∧
    (search idx qv k).length = min k idx.length ∧
    (search idx qv k).length ≤ k ∧
    ((search idx qv k).map fun p => toSource sectOf p.1 p.2).length =
      (search idx qv k).length := by
  have hlen : (search idx qv k).length = min k idx.length := by
    simp [search, searchRanked, List.length_take, scoreEntries]
  refine ⟨by simp [answerQ, he, hg], hlen, ?_, List.length_map ..⟩
  rw [hlen]
  exact Nat.min_le_left ..

/-- Witness for C6: a one-vector index searched with `k = 2` includes
`min 2 1 = 1` chunk. -/
theorem c6_answer_shape_witness :
    (search [(sampleChunk, [1])] [1] 2).length =
      min 2 [(sampleChunk, [1])].length :=
  (c6_answer_shape [(sampleChunk, [1])] embedOk genOk sectNone 2 "q" [1]
    { text := "fine", usage := ⟨1, 2, 3⟩ } rfl rfl).2.1

/-- C9: indexing a chunk and then searching with that chunk's own embedding
returns that chunk as the top-1 result with similarity 1, the maximum the
metric attains on unit vectors (for any same-dimension unit vector `w`,
`⟨w, v⟩ ≤ 1 = ⟨v, v⟩`). -/
theorem c9_roundtrip_topone (c : Chunk) (v : Vec) (hv : dot v v = 1) (k : ℕ)
    (hk : 1 ≤ k) :
    search [(c, v)] v k = [(c, 1)] ∧
    (∀ w : Vec, w.length = v.length → dot w w = 1 → dot w v ≤ 1) := by
  constructor
  · have h1 : scoreEntries [(c, v)] v = [⟨0, c, 1⟩] := by
      simp [scoreEntries, hv]
    have h2 : searchRanked [(c, v)] v k = [⟨0, c, 1⟩] := by
      unfold searchRanked
      rw [h1, List.take_of_length_le (by simpa using hk)]
      rfl
    simp [search, h2]
  · intro w hw hww
    exact dot_le_one v w hw hv hww

/-- Witness for C9 at the unit vector (3/5, 4/5). -/
theorem c9_roundtrip_topone_witness :
    search [(sampleChunk, [3/5, 4/5])] [3/5, 4/5] 1 = [(sampleChunk, 1)] ∧
    dot [3/5, 4/5] [3/5, 4/5] ≤ 1 :=
  ⟨(c9_roundtrip_topone sampleChunk [3/5, 4/5]
      (by norm_num [dot, List.zipWith]) 1 le_rfl).1,
   (c9_roundtrip_topone sampleChunk [3/5, 4/5]
      (by norm_num [dot, List.zipWith]) 1 le_rfl).2
     [3/5, 4/5] rfl (by norm_num [dot, List.zipWith])⟩

/-- C10: the query box submission handler invokes `onSubmit` only with the
trimmed query, and only when the trimmed query is non-empty and no request
is loading; a whitespace-only or empty question, or a submission while
loading, is never forwarded. -/
theorem c10_querybox_guard (q : String) (l : Bool) :
    (∀ s, handleSubmit q l = some s →
      s = jsTrim q ∧ jsTrim q ≠ "" ∧ l = false) ∧
    (jsTrim q = "" → handleSubmit q l = none) ∧
    (l = true → handleSubmit q l = none) := by
  refine ⟨?_, ?_, ?_⟩
  · intro s hs
    unfold handleSubmit at hs
    split at hs
    · next hcond =>
        injection hs with hs1
        exact ⟨hs1.symm, hcond.1, hcond.2⟩
    · cases hs
  · intro h
    simp [handleSubmit, h]
  · intro h
    simp [handleSubmit, h]

/-- Witness for C10: a whitespace-only query is not submitted, a non-blank
query is submitted trimmed, and nothing is submitted while loading. -/
theorem c10_querybox_guard_witness :
    handleSubmit "   " false = none ∧
    ("hi" = jsTrim " hi " ∧ jsTrim " hi " ≠ "" ∧ false = false) ∧
    handleSubmit " hi " true = none :=
  ⟨(c10_querybox_guard "   " false).2.1 (by decide),
   (c10_querybox_guard " hi " false).1 "hi" (by decide),
   (c10_querybox_guard " hi " true).2.2 rfl⟩

end ReFind
